import Mathlib

/-!
Verification of the dataset ingestion pipeline of mirador-xyviewer:
delimiter detection, tabular parsing, LTTB downsampling, the TTL dataset
cache with pending-request coalescing, and the secure fetcher
(src/services/datasetParser.ts, src/services/datasetCache.ts,
src/services/datasetFetcher.ts, src/utils/security.ts, src/types/dataset.ts).

Strings are embedded as `List Char`; JavaScript numbers are embedded as
exact rationals (`ℚ`), with JS `NaN` represented by `none` in `Option ℚ`
where the code can produce or store it.  `parseFloat` / `parseInt` are
modelled for finite decimal notation (the strings `Infinity` and
`-Infinity`, which the code treats like `NaN` via its `isFinite` checks,
are mapped to `none` directly).
-/

/-- ASCII whitespace, the model of the characters matched by `\s` and
removed by `String.prototype.trim` for the ASCII inputs considered here. -/
def isJsWhitespace (c : Char) : Bool :=
  c = ' ' || c = '\t' || c = '\n' || c = '\r' || c = '\x0b' || c = '\x0c'

/-- ASCII digit test, the model of `\d`. -/
def isAsciiDigit (c : Char) : Bool :=
  ('0' ≤ c) && (c ≤ '9')

/-- Numeric value of an ASCII digit. -/
def digitVal (c : Char) : ℕ := c.toNat - Char.toNat '0'

/-- Value of a digit string read in base 10. -/
def digitsToNat (ds : List Char) : ℕ :=
  ds.foldl (fun acc c => 10 * acc + digitVal c) 0

/-- Model of `String.prototype.trim` (both ends). -/
def charTrim (s : List Char) : List Char :=
  ((s.dropWhile isJsWhitespace).reverse.dropWhile isJsWhitespace).reverse

/-- Split a character list at every occurrence of `sep`
(model of `String.prototype.split` with a single-character separator). -/
def splitOnChar (sep : Char) : List Char → List (List Char)
  | [] => [[]]
  | c :: rest =>
    let r := splitOnChar sep rest
    if c = sep then [] :: r
    else
      match r with
      | h :: t => (c :: h) :: t
      | [] => [[c]]

/-- Model of JavaScript `parseFloat`: skip leading whitespace, read an
optional sign, an integer part, an optional fractional part and an
optional exponent, ignoring any trailing garbage; `none` models `NaN`. -/
def jsParseFloat (s : List Char) : Option ℚ :=
  let s1 := s.dropWhile isJsWhitespace
  let sgn : ℚ × List Char :=
    match s1 with
    | '-' :: rest => (-1, rest)
    | '+' :: rest => (1, rest)
    | _ => (1, s1)
  let s2 := sgn.2
  let intPart := s2.takeWhile isAsciiDigit
  let s3 := s2.dropWhile isAsciiDigit
  let fracState : List Char × List Char :=
    match s3 with
    | '.' :: rest => (rest.takeWhile isAsciiDigit, rest.dropWhile isAsciiDigit)
    | _ => ([], s3)
  let fracPart := fracState.1
  let s4 := fracState.2
  if intPart.isEmpty && fracPart.isEmpty then none
  else
    let mantissa : ℚ :=
      (digitsToNat intPart : ℚ) + (digitsToNat fracPart : ℚ) / (10 : ℚ) ^ fracPart.length
    let expVal : ℤ :=
      match s4 with
      | e :: rest =>
        if e = 'e' || e = 'E' then
          let esgn : ℤ × List Char :=
            match rest with
            | '-' :: r => (-1, r)
            | '+' :: r => (1, r)
            | _ => (1, rest)
          let eds := esgn.2.takeWhile isAsciiDigit
          if eds.isEmpty then 0 else esgn.1 * (digitsToNat eds : ℤ)
        else 0
      | [] => 0
    some (sgn.1 * mantissa * (10 : ℚ) ^ expVal)

/-- Model of JavaScript `parseInt(s, 10)`: skip leading whitespace, read an
optional sign and a base-10 digit run; `none` models `NaN`. -/
def jsParseInt (s : List Char) : Option ℤ :=
  let s1 := s.dropWhile isJsWhitespace
  let sgn : ℤ × List Char :=
    match s1 with
    | '-' :: rest => (-1, rest)
    | '+' :: rest => (1, rest)
    | _ => (1, s1)
  let ds := sgn.2.takeWhile isAsciiDigit
  if ds.isEmpty then none else some (sgn.1 * (digitsToNat ds : ℤ))

/-- Maximum number of data points before downsampling
(`MAX_DATA_POINTS`, src/types/dataset.ts). -/
def MAX_DATA_POINTS : ℕ := 10000

/-- Maximum dataset payload size in bytes (`MAX_DATASET_SIZE`, src/types/dataset.ts). -/
def MAX_DATASET_SIZE : ℕ := 5 * 1024 * 1024

/-- Cache TTL in milliseconds (`CACHE_TTL`, src/types/dataset.ts). -/
def CACHE_TTL : ℤ := 30 * 60 * 1000

/-- A single data point (`DataPoint`, src/types/dataset.ts), at a place in
the code where both coordinates are finite numbers. -/
structure DataPoint where
  x : ℚ
  y : ℚ
deriving DecidableEq, Repr

/-- Out-of-range array reads do not occur on the executed paths of
`downsample`; this value is the formal default for `List.getD`. -/
def defaultPoint : DataPoint := ⟨0, 0⟩

/-- One iteration of the LTTB bucket loop of `downsample`
(src/services/datasetParser.ts lines 103-144): given the previous selected
index `a` and the loop counter `i`, compute the index selected in the
current bucket. -/
def lttbSelect (points : List DataPoint) (bucketSize : ℚ) (i : ℕ) (a : ℕ) : ℕ :=
  let bucketStart := (⌊((i : ℚ) + 1) * bucketSize⌋ + 1).toNat
  let bucketEnd := min ((⌊((i : ℚ) + 2) * bucketSize⌋ + 1).toNat) (points.length - 1)
  let nextBucketStart := (⌊((i : ℚ) + 2) * bucketSize⌋ + 1).toNat
  let nextBucketEnd := min ((⌊((i : ℚ) + 3) * bucketSize⌋ + 1).toNat) points.length
  let nextBucketCount := nextBucketEnd - nextBucketStart
  let nextPts := (points.take nextBucketEnd).drop nextBucketStart
  let avgX : ℚ := if 0 < nextBucketCount then (nextPts.map DataPoint.x).sum / (nextBucketCount : ℚ) else 0
  let avgY : ℚ := if 0 < nextBucketCount then (nextPts.map DataPoint.y).sum / (nextBucketCount : ℚ) else 0
  let pointA := points.getD a defaultPoint
  let chosen := (List.range' bucketStart (bucketEnd - bucketStart)).foldl
    (fun (acc : ℚ × ℕ) j =>
      let p := points.getD j defaultPoint
      let area := |(pointA.x - avgX) * (p.y - pointA.y) - (pointA.x - p.x) * (avgY - pointA.y)| * (1 / 2 : ℚ)
      if acc.1 < area then (area, j) else acc)
    (-1, bucketStart)
  chosen.2

/-- The body of the LTTB bucket loop: push the point selected in bucket
`i` and remember its index as the new previous point
(src/services/datasetParser.ts lines 142-143). -/
def lttbFoldStep (points : List DataPoint) (bucketSize : ℚ)
    (acc : List DataPoint × ℕ) (i : ℕ) : List DataPoint × ℕ :=
  (acc.1 ++ [points.getD (lttbSelect points bucketSize i acc.2) defaultPoint],
   lttbSelect points bucketSize i acc.2)

/-- Largest-Triangle-Three-Buckets downsampling (`downsample`,
src/services/datasetParser.ts lines 92-150).  The JS loop pushing one
point per bucket is rendered as a fold over `List.range (targetCount - 2)`
(for `targetCount < 2` the JS loop bound `targetCount - 2` is negative and
the loop body never runs, exactly like the natural subtraction here). -/
def downsample (points : List DataPoint) (targetCount : ℕ) : List DataPoint :=
  if points.length ≤ targetCount then points
  else
    ((List.range (targetCount - 2)).foldl
        (lttbFoldStep points (((points.length : ℚ) - 2) / ((targetCount : ℚ) - 2)))
        ([points.getD 0 defaultPoint], 0)).1
      ++ [points.getD (points.length - 1) defaultPoint]

/-- First non-blank line of the content, trimmed
(src/services/datasetParser.ts lines 31-40). -/
def firstNonBlankLine (content : List Char) : List Char :=
  (((splitOnChar '\n' content).map charTrim).find? (fun l => !l.isEmpty)).getD []

/-- Scanner for the regex `\s*\S` tail: after skipping whitespace there is
a non-whitespace character. -/
def afterWsStar : List Char → Bool
  | [] => false
  | c :: rest => if isJsWhitespace c then afterWsStar rest else true

/-- Scanner for `\s{2,}\s*\S`: two whitespace characters, then `\s*\S`. -/
def twoWsThenNonWs : List Char → Bool
  | c1 :: c2 :: rest => isJsWhitespace c1 && isJsWhitespace c2 && afterWsStar rest
  | _ => false

/-- Model of `/\S\s{2,}\S/.test` (the `hasMultipleSpaces` test of
`detectDelimiter`). -/
def hasMultiSpace : List Char → Bool
  | [] => false
  | c :: rest => (!isJsWhitespace c && twoWsThenNonWs rest) || hasMultiSpace rest

/-- Character class `[\d.]`. -/
def isNumDotChar (c : Char) : Bool := isAsciiDigit c || c = '.'

/-- Scanner for the regex `\s*[\d.]` tail: after skipping whitespace there
is a digit-or-dot character. -/
def afterWsStarNum : List Char → Bool
  | [] => false
  | c :: rest => if isJsWhitespace c then afterWsStarNum rest else isNumDotChar c

/-- Scanner for `\s+[\d.]`: one whitespace character then `\s*[\d.]`. -/
def wsPlusThenNum : List Char → Bool
  | [] => false
  | c :: rest => isJsWhitespace c && afterWsStarNum rest

/-- Model of `/[\d.]+\s+[\d.]+/.test` (the `spaceSeparatedPattern` test of
`detectDelimiter`): some digit-or-dot character is followed by a run of
whitespace and another digit-or-dot character. -/
def hasNumSpaceNum : List Char → Bool
  | [] => false
  | c :: rest => (isNumDotChar c && wsPlusThenNum rest) || hasNumSpaceNum rest

/-- The decision chain of `detectDelimiter`
(src/services/datasetParser.ts lines 51-57), as a function of the three
delimiter counts and the two space-pattern test results of the first
non-blank line. -/
def delimiterChoiceCode (tabCount commaCount semicolonCount : ℕ)
    (hasMultipleSpaces spaceSeparatedPattern : Bool) : Option Char :=
  let isSpaceSeparated := hasMultipleSpaces ||
    (spaceSeparatedPattern && tabCount == 0 && commaCount == 0 && semicolonCount == 0)
  if 0 < tabCount ∧ commaCount ≤ tabCount ∧ semicolonCount ≤ tabCount then some '\t'
  else if 0 < semicolonCount ∧ commaCount < semicolonCount then some ';'
  else if 0 < commaCount then some ','
  else if isSpaceSeparated then none
  else some ','

/-- Delimiter detection (`detectDelimiter`, src/services/datasetParser.ts
lines 30-58).  `some c` is the returned delimiter character; `none` models
the `null` return that signals space-separated parsing. -/
def detectDelimiter (content : List Char) : Option Char :=
  if (firstNonBlankLine content).isEmpty then some ','
  else
    delimiterChoiceCode
      ((firstNonBlankLine content).count '\t')
      ((firstNonBlankLine content).count ',')
      ((firstNonBlankLine content).count ';')
      (hasMultiSpace (firstNonBlankLine content))
      (hasNumSpaceNum (firstNonBlankLine content))

/-- The decision chain claimed by the specification, word for word: a
space-like pattern (two or more consecutive spaces, or a
numeric-space-numeric pattern with zero tab/comma/semicolon counts)
signals space-separated; otherwise the strictly highest count wins, with
tie precedence tab over semicolon over comma, and comma is the default
when all counts are zero. -/
def delimiterChoiceClaim (tabCount commaCount semicolonCount : ℕ)
    (hasMultipleSpaces spaceSeparatedPattern : Bool) : Option Char :=
  if hasMultipleSpaces ||
      (spaceSeparatedPattern && tabCount == 0 && commaCount == 0 && semicolonCount == 0) then none
  else
    let m := max tabCount (max commaCount semicolonCount)
    if m = 0 then some ','
    else if tabCount = m then some '\t'
    else if semicolonCount = m then some ';'
    else some ','

/-- `detectDelimiter` as the specification describes it (claim C5 as
stated). -/
def detectDelimiterClaim (content : List Char) : Option Char :=
  if (firstNonBlankLine content).isEmpty then some ','
  else
    delimiterChoiceClaim
      ((firstNonBlankLine content).count '\t')
      ((firstNonBlankLine content).count ',')
      ((firstNonBlankLine content).count ';')
      (hasMultiSpace (firstNonBlankLine content))
      (hasNumSpaceNum (firstNonBlankLine content))

/-- The corrected decision chain: the space-separated signal fires only
when the tab, comma and semicolon counts are all zero; otherwise the
highest count wins, with ties broken in favour of tab over both others
and in favour of comma over semicolon. -/
def delimiterChoiceAmended (tabCount commaCount semicolonCount : ℕ)
    (hasMultipleSpaces spaceSeparatedPattern : Bool) : Option Char :=
  if (hasMultipleSpaces || spaceSeparatedPattern) &&
      tabCount == 0 && commaCount == 0 && semicolonCount == 0 then none
  else
    let m := max tabCount (max commaCount semicolonCount)
    if m = 0 then some ','
    else if tabCount = m then some '\t'
    else if semicolonCount = m ∧ commaCount < semicolonCount then some ';'
    else some ','

/-- `detectDelimiter` as corrected (the amended claim C5). -/
def detectDelimiterAmended (content : List Char) : Option Char :=
  if (firstNonBlankLine content).isEmpty then some ','
  else
    delimiterChoiceAmended
      ((firstNonBlankLine content).count '\t')
      ((firstNonBlankLine content).count ',')
      ((firstNonBlankLine content).count ';')
      (hasMultiSpace (firstNonBlankLine content))
      (hasNumSpaceNum (firstNonBlankLine content))

/-- A fold whose step appends exactly one element to the accumulated list
keeps the accumulator as a prefix and grows the length by one per
iteration. -/
theorem foldl_snoc_shape (f : List DataPoint × ℕ → ℕ → List DataPoint × ℕ)
    (hf : ∀ acc i, ∃ p n, f acc i = (acc.1 ++ [p], n)) :
    ∀ (l : List ℕ) (acc : List DataPoint × ℕ),
      (l.foldl f acc).1.length = acc.1.length + l.length ∧
      ∃ ext, (l.foldl f acc).1 = acc.1 ++ ext := by
  intro l
  induction l with
  | nil => intro acc; exact ⟨by simp, [], by simp⟩
  | cons i t ih =>
    intro acc
    obtain ⟨p, n, hp⟩ := hf acc i
    constructor
    · have := (ih (f acc i)).1
      rw [List.foldl_cons, this, hp]
      simp
      omega
    · obtain ⟨ext, hext⟩ := (ih (f acc i)).2
      refine ⟨p :: ext, ?_⟩
      rw [List.foldl_cons, hext, hp]
      simp

/-- Claim C4 (amended): for every list of points and every target `k` with
`2 ≤ k < len(points)`, `downsample` returns exactly `k` points, and the
first and last returned points equal the first and last input points. -/
theorem downsample_count_and_endpoints (pts : List DataPoint) (k : ℕ)
    (h2 : 2 ≤ k) (hk : k < pts.length) :
    (downsample pts k).length = k ∧
    (downsample pts k).head? = pts.head? ∧
    (downsample pts k).getLast? = pts.getLast? := by
  have hpos : 0 < pts.length := by omega
  have hlt : pts.length - 1 < pts.length := by omega
  unfold downsample
  rw [if_neg (by omega)]
  obtain ⟨hlen, ext, hext⟩ :=
    foldl_snoc_shape (lttbFoldStep pts (((pts.length : ℚ) - 2) / ((k : ℚ) - 2)))
      (fun acc i => ⟨_, _, rfl⟩)
      (List.range (k - 2)) ([pts.getD 0 defaultPoint], 0)
  refine ⟨?_, ?_, ?_⟩
  · rw [List.length_append, hlen]
    simp only [List.length_singleton, List.length_range]
    omega
  · rw [hext]
    have h0 : pts.getD 0 defaultPoint = pts.head?.getD defaultPoint := by
      rw [List.getD_eq_getElem?_getD, List.head?_eq_getElem?]
    cases hpts : pts with
    | nil => rw [hpts] at hpos; simp at hpos
    | cons a t => subst hpts; simp [List.getD]
  · rw [List.getLast?_concat, List.getD_eq_getElem?_getD, List.getLast?_eq_getElem?,
      List.getElem?_eq_getElem hlt]
    rfl

/-- Claim C4 is false as stated at target 1: on a two-point list with
`k = 1 < 2 = len(points)`, `downsample` returns two points, not one. -/
theorem downsample_target_one_counterexample :
    1 < ([⟨0, 0⟩, ⟨1, 1⟩] : List DataPoint).length ∧
    (downsample [⟨0, 0⟩, ⟨1, 1⟩] 1).length ≠ 1 := by decide

/-- Witness for `downsample_count_and_endpoints` at a concrete input. -/
theorem downsample_count_and_endpoints_witness :
    (downsample [⟨0, 0⟩, ⟨1, 5⟩, ⟨2, 1⟩, ⟨3, 2⟩, ⟨4, 4⟩] 3).length = 3 ∧
    (downsample [⟨0, 0⟩, ⟨1, 5⟩, ⟨2, 1⟩, ⟨3, 2⟩, ⟨4, 4⟩] 3).head? =
      ([⟨0, 0⟩, ⟨1, 5⟩, ⟨2, 1⟩, ⟨3, 2⟩, ⟨4, 4⟩] : List DataPoint).head? ∧
    (downsample [⟨0, 0⟩, ⟨1, 5⟩, ⟨2, 1⟩, ⟨3, 2⟩, ⟨4, 4⟩] 3).getLast? =
      ([⟨0, 0⟩, ⟨1, 5⟩, ⟨2, 1⟩, ⟨3, 2⟩, ⟨4, 4⟩] : List DataPoint).getLast? :=
  downsample_count_and_endpoints [⟨0, 0⟩, ⟨1, 5⟩, ⟨2, 1⟩, ⟨3, 2⟩, ⟨4, 4⟩] 3
    (by decide) (by decide)

/-- The decision chain of the code and the amended decision chain agree on
all inputs. -/
theorem delimiterChoice_code_eq_amended (t c s : ℕ) (hm sp : Bool) :
    delimiterChoiceCode t c s hm sp = delimiterChoiceAmended t c s hm sp := by
  simp only [delimiterChoiceCode, delimiterChoiceAmended]
  by_cases hz : t = 0 ∧ c = 0 ∧ s = 0
  · obtain ⟨ht, hc, hs⟩ := hz
    subst ht; subst hc; subst hs
    cases hm <;> cases sp <;> decide
  · have hspace : ¬ (((hm || sp) && (t == 0) && (c == 0) && (s == 0)) = true) := by
      simp only [Bool.and_eq_true, beq_iff_eq]
      rintro ⟨⟨⟨-, ht⟩, hc⟩, hs⟩
      exact hz ⟨ht, hc, hs⟩
    by_cases h1 : 0 < t ∧ c ≤ t ∧ s ≤ t
    · rw [if_pos h1, if_neg hspace, if_neg (by omega : ¬ max t (max c s) = 0),
        if_pos (by omega : t = max t (max c s))]
    · by_cases h2 : 0 < s ∧ c < s
      · rw [if_neg h1, if_pos h2, if_neg hspace, if_neg (by omega : ¬ max t (max c s) = 0),
          if_neg (by omega : ¬ t = max t (max c s)),
          if_pos (by constructor <;> omega : s = max t (max c s) ∧ c < s)]
      · by_cases h3 : 0 < c
        · rw [if_neg h1, if_neg h2, if_pos h3, if_neg hspace,
            if_neg (by omega : ¬ max t (max c s) = 0),
            if_neg (by omega : ¬ t = max t (max c s)),
            if_neg (by omega : ¬ (s = max t (max c s) ∧ c < s))]
        · exact absurd ⟨by omega, by omega, by omega⟩ hz

/-- Claim C5 (amended): `detectDelimiter` signals space-separated exactly
when the first non-blank line has two or more consecutive spaces or a
numeric-space-numeric pattern while the tab, comma and semicolon counts
are all zero; otherwise the highest count wins, with ties broken in
favour of tab over both others and comma over semicolon, and comma is
returned when all counts are zero (also for blank content). -/
theorem detectDelimiter_eq_amended (content : List Char) :
    detectDelimiter content = detectDelimiterAmended content := by
  unfold detectDelimiter detectDelimiterAmended
  split_ifs with h
  · rfl
  · exact delimiterChoice_code_eq_amended _ _ _ _ _

/-- Claim C5 as stated is false: the line `1  2,3` has two consecutive
spaces, so the claim signals space-separated, but the code returns the
comma delimiter because the comma count is positive. -/
theorem detectDelimiter_claim_counterexample :
    detectDelimiter ("1  2,3".toList) = some ',' ∧
    detectDelimiterClaim ("1  2,3".toList) = none := by decide

/-- A Y series of the parsed spectrum (`SeriesData`, src/types/dataset.ts).
Entries of `yValues` are `none` where the code stores `NaN` placeholders. -/
structure SeriesData where
  label : List Char
  yValues : List (Option ℚ)
deriving DecidableEq, Repr

/-- The parsed spectrum (`SpectrumData`, src/types/dataset.ts), including
the legacy `points` and `yLabel` fields. -/
structure SpectrumData where
  id : List Char
  label : List Char
  xValues : List ℚ
  xLabel : List Char
  series : List SeriesData
  mimeType : List Char
  points : List DataPoint
  yLabel : Option (List Char)
deriving DecidableEq, Repr

/-- One surviving data row before materialization: the finite X value and
one parsed Y value per Y column (`none` = the `NaN` placeholder)
(src/services/datasetParser.ts lines 248-270). -/
structure RawRow where
  x : ℚ
  yValues : List (Option ℚ)
deriving DecidableEq, Repr

/-- Comparison used by `rawData.sort((a, b) => a.x - b.x)`
(src/services/datasetParser.ts line 277). -/
def rawRowLe (a b : RawRow) : Prop := a.x ≤ b.x

instance : DecidableRel rawRowLe := fun a b => inferInstanceAs (Decidable (a.x ≤ b.x))

instance : IsTotal RawRow rawRowLe := ⟨fun a b => le_total a.x b.x⟩

instance : IsTrans RawRow rawRowLe := ⟨fun _ _ _ => le_trans⟩

mutual

/-- Collapse every whitespace run into a single tab
(the `replace(/\s+/g, '\t')` step of `normalizeSpaceSeparated`): outside a
whitespace run, a whitespace character emits one tab and enters the run. -/
def collapseWs : List Char → List Char
  | [] => []
  | c :: rest =>
    if isJsWhitespace c then '\t' :: collapseWsInRun rest
    else c :: collapseWs rest

/-- Inside a whitespace run: further whitespace is swallowed; the first
non-whitespace character leaves the run. -/
def collapseWsInRun : List Char → List Char
  | [] => []
  | c :: rest =>
    if isJsWhitespace c then collapseWsInRun rest
    else c :: collapseWs rest

end

/-- Space-separated normalization (`normalizeSpaceSeparated`,
src/services/datasetParser.ts lines 64-75): trim each line, collapse
whitespace runs to tabs, drop blank lines, rejoin with newlines. -/
def normalizeSpaceSeparated (content : List Char) : List Char :=
  List.intercalate ('\n' :: [])
    (((splitOnChar '\n' content).map (fun line => collapseWs (charTrim line))).filter
      (fun l => !l.isEmpty))

/-- Strip a trailing carriage return from a line (newline handling of the
CSV reader for `\r\n` input). -/
def dropTrailingCR (l : List Char) : List Char :=
  if l.getLast? = some '\r' then l.dropLast else l

/-- Model of `Papa.parse` with the delimiter chosen by `parseDataset` and
`skipEmptyLines: true` (src/services/datasetParser.ts lines 188-192):
split into lines, drop empty lines, split each line at the delimiter.
Quoted fields are not modelled (no input in this development contains a
quote character). -/
def papaParse (delimiter : Char) (content : List Char) : List (List (List Char)) :=
  (((splitOnChar '\n' content).map dropTrailingCR).filter (fun l => !l.isEmpty)).map
    (splitOnChar delimiter)

/-- Header/metadata row test (`isNonNumericRow`,
src/services/datasetParser.ts lines 155-161): some non-blank cell fails to
parse as a number. -/
def isNonNumericRow (row : List (List Char)) : Bool :=
  row.any (fun cell =>
    let trimmed := charTrim cell
    if trimmed.isEmpty then false else (jsParseFloat trimmed).isNone)

/-- The header scan loop (src/services/datasetParser.ts lines 208-214):
advance `i` while rows are non-numeric, remembering the last non-numeric
index in `last`; stop at the first numeric row.  The loop condition
`i < maxCheck` is rendered by the remaining-iteration count
`fuel = maxCheck - i`, so the loop is entered with `fuel = maxCheck`. -/
def scanHeadersGo (rows : List (List (List Char))) : ℕ → ℕ → ℤ → ℤ
  | 0, _, last => last
  | fuel + 1, i, last =>
    if isNonNumericRow (rows.getD i []) then scanHeadersGo rows fuel (i + 1) (i : ℤ)
    else last

/-- Header extraction (src/services/datasetParser.ts lines 203-228):
returns the header names and the data rows.  The scan bound is
`min(5, rows.length - 1)`; if no non-numeric row was found, headers are
synthesized as `Column i` and every row is data. -/
def headerSplit (rows : List (List (List Char))) : List (List Char) × List (List (List Char)) :=
  let lastHeaderIndex := scanHeadersGo rows (min 5 (rows.length - 1)) 0 (-1)
  if 0 ≤ lastHeaderIndex then
    ((rows.getD lastHeaderIndex.toNat []).map charTrim, rows.drop (lastHeaderIndex.toNat + 1))
  else
    ((rows.getD 0 []).mapIdx (fun i _ => ("Column " ++ toString (i + 1)).toList), rows)

/-- The ordered X-column name patterns (`X_COLUMN_PATTERNS`,
src/services/datasetParser.ts lines 11-24); each entry models the
corresponding case-insensitive anchored regex test. -/
def X_COLUMN_PATTERNS : List (List Char → Bool) :=
  [ fun h => h.map Char.toLower == ("x".toList),
    fun h => ("wavelength".toList).isPrefixOf (h.map Char.toLower),
    fun h => ("wavenumber".toList).isPrefixOf (h.map Char.toLower),
    fun h => ("energy".toList).isPrefixOf (h.map Char.toLower),
    fun h => ("frequency".toList).isPrefixOf (h.map Char.toLower),
    fun h => ("channel".toList).isPrefixOf (h.map Char.toLower),
    fun h => ("position".toList).isPrefixOf (h.map Char.toLower),
    fun h => ("time".toList).isPrefixOf (h.map Char.toLower),
    fun h => ("index".toList).isPrefixOf (h.map Char.toLower),
    fun h => h.map Char.toLower == ("nm".toList),
    fun h => h.map Char.toLower == ("ev".toList),
    fun h => h.map Char.toLower == ("kev".toList) ]

/-- Pattern-ordered column search (`findColumn`,
src/services/datasetParser.ts lines 80-86): the first pattern matching
some (trimmed) header wins; `-1` if none matches. -/
def findColumn (headers : List (List Char)) (patterns : List (List Char → Bool)) : ℤ :=
  match patterns with
  | [] => -1
  | p :: rest =>
    match headers.findIdx? (fun h => p (charTrim h)) with
    | some index => (index : ℤ)
    | none => findColumn headers rest

/-- X-column selection and Y-column enumeration
(src/services/datasetParser.ts lines 230-240). -/
def classifyColumns (headers : List (List Char)) : ℕ × List ℕ :=
  let xColFound := findColumn headers X_COLUMN_PATTERNS
  let xCol := if xColFound = -1 then 0 else xColFound.toNat
  (xCol, (List.range headers.length).filter (fun i => i != xCol))

/-- Extraction of one data row (src/services/datasetParser.ts lines
250-270): a finite X is required; each Y parses to a value or a `NaN`
placeholder; rows whose Y values are all invalid are dropped. -/
def extractRow (xCol : ℕ) (yColumns : List ℕ) (row : List (List Char)) : Option RawRow :=
  match jsParseFloat (row.getD xCol []) with
  | none => none
  | some xVal =>
    let yValues := yColumns.map (fun yCol => jsParseFloat (row.getD yCol []))
    if yValues.any Option.isSome then some ⟨xVal, yValues⟩ else none

/-- Materialization of the spectrum from the sorted surviving rows
(src/services/datasetParser.ts lines 279-328), including the
downsampling branch (lines 294-316) with its x-value-set based index
recovery.  The `tempPoints` array filtered at line 298 is built by the
same map-and-filter as the `points` array of lines 289-292, so the model
passes `points` to `downsample` directly. -/
def buildSpectrum (id label mimeType : List Char) (headers : List (List Char))
    (xCol : ℕ) (yColumns : List ℕ) (sortedData : List RawRow) : SpectrumData :=
  let xValues := sortedData.map RawRow.x
  let series := yColumns.enum.map (fun p =>
    ({ label := headers.getD p.2 [],
       yValues := sortedData.map (fun d => d.yValues.getD p.1 none) } : SeriesData))
  let points := sortedData.filterMap (fun d =>
    (d.yValues.getD 0 none).map (fun y => (⟨d.x, y⟩ : DataPoint)))
  if MAX_DATA_POINTS < xValues.length then
    let sampledPoints := downsample points MAX_DATA_POINTS
    let sampledXs := sampledPoints.map DataPoint.x
    let sampledIndices := sortedData.enum.filterMap (fun p =>
      if p.2.x ∈ sampledXs then some p.1 else none)
    let xValues2 := sampledIndices.map (fun i => (sortedData.getD i ⟨0, []⟩).x)
    let series2 := series.map (fun s =>
      ({ label := s.label, yValues := sampledIndices.map (fun i => s.yValues.getD i none) } : SeriesData))
    { id := id, label := label, xValues := xValues2, xLabel := headers.getD xCol [],
      series := series2, mimeType := mimeType, points := sampledPoints,
      yLabel := series2.head?.map SeriesData.label }
  else
    { id := id, label := label, xValues := xValues, xLabel := headers.getD xCol [],
      series := series, mimeType := mimeType, points := points,
      yLabel := series.head?.map SeriesData.label }

/-- The tabular parser after CSV row splitting (`parseDataset`,
src/services/datasetParser.ts lines 194-328), over the row list produced
by the CSV reader; typed errors are the thrown `Error` messages.  The
stable in-place `rawData.sort((a, b) => a.x - b.x)` (line 277) is
modelled by the stable `List.insertionSort` on `rawRowLe`. -/
def parseDatasetRows (rows : List (List (List Char))) (id label mimeType : List Char) :
    Except (List Char) SpectrumData :=
  if rows.length < 1 then Except.error ("Dataset is empty".toList)
  else
    let hd := headerSplit rows
    let cls := classifyColumns hd.1
    if cls.2.isEmpty then
      Except.error ("Dataset must contain at least two columns (X and Y)".toList)
    else
      let rawData := hd.2.filterMap (extractRow cls.1 cls.2)
      if rawData.isEmpty then
        Except.error ("No valid numeric data points found in dataset".toList)
      else
        Except.ok (buildSpectrum id label mimeType hd.1 cls.1 cls.2
          (List.insertionSort rawRowLe rawData))

/-- The full parser (`parseDataset`, src/services/datasetParser.ts lines
166-329): delimiter selection (forced to tab for the TSV MIME type),
space-separated normalization when signalled, CSV row splitting, then row
parsing. -/
def parseDataset (content id label mimeType : List Char) : Except (List Char) SpectrumData :=
  if mimeType = ("text/tab-separated-values".toList) then
    parseDatasetRows (papaParse '\t' content) id label mimeType
  else
    match detectDelimiter content with
    | none => parseDatasetRows (papaParse '\t' (normalizeSpaceSeparated content)) id label mimeType
    | some d => parseDatasetRows (papaParse d content) id label mimeType

deriving instance DecidableEq for Except

/-- An `Except` value whose `isOk` test succeeds is `ok` of its unwrapped
option value. -/
theorem except_ok_of_isOk {ε α : Type} (x : Except ε α) (d : α) (h : x.isOk = true) :
    x = Except.ok (x.toOption.getD d) := by
  cases x with
  | ok a => rfl
  | error e => exact Bool.noConfusion h

/-- Zipping preserves pairwise relations on the first components. -/
theorem pairwise_fst_zip {α β : Type} {R : α → α → Prop} :
    ∀ (l1 : List α) (l2 : List β), l1.Pairwise R →
      (l1.zip l2).Pairwise (fun p q => R p.1 q.1) := by
  intro l1
  induction l1 with
  | nil => intro l2 h; simp
  | cons a t ih =>
    intro l2 h
    cases l2 with
    | nil => simp
    | cons b t2 =>
      rw [List.zip_cons_cons]
      refine List.pairwise_cons.mpr ⟨?_, ih t2 (List.pairwise_cons.mp h).2⟩
      intro q hq
      rcases q with ⟨q1, q2⟩
      exact (List.pairwise_cons.mp h).1 q1 (List.of_mem_zip hq).1

/-- The indices of `enum` are strictly increasing. -/
theorem pairwise_enum_fst {α : Type} (l : List α) :
    l.enum.Pairwise (fun p q => p.1 < q.1) := by
  rw [List.enum_eq_zip_range]
  exact pairwise_fst_zip _ _ (List.pairwise_lt_range _)

/-- Reading a list sorted by `rawRowLe` at increasing in-range positions
gives non-decreasing x values. -/
theorem sorted_x_getD_le {l : List RawRow} (h : l.Pairwise rawRowLe)
    {i j : ℕ} (hij : i < j) (hj : j < l.length) (d : RawRow) :
    (l.getD i d).x ≤ (l.getD j d).x := by
  have hi : i < l.length := lt_trans hij hj
  rw [List.getD_eq_getElem?_getD, List.getElem?_eq_getElem hi,
    List.getD_eq_getElem?_getD, List.getElem?_eq_getElem hj]
  have := List.pairwise_iff_get.mp h ⟨i, hi⟩ ⟨j, hj⟩ hij
  simpa [List.get_eq_getElem] using this

/-- The spectrum built from rows sorted by x has sorted `xValues` and one
y value per x value in every series, on both the downsampling and the
plain branch. -/
theorem buildSpectrum_sorted_aligned (id label mime : List Char) (headers : List (List Char))
    (xCol : ℕ) (yColumns : List ℕ) (sortedData : List RawRow)
    (hs : List.Pairwise rawRowLe sortedData) :
    List.Sorted (· ≤ ·) (buildSpectrum id label mime headers xCol yColumns sortedData).xValues ∧
    ∀ ser ∈ (buildSpectrum id label mime headers xCol yColumns sortedData).series,
      ser.yValues.length = (buildSpectrum id label mime headers xCol yColumns sortedData).xValues.length := by
  unfold buildSpectrum
  dsimp only
  split_ifs with hlen
  · -- downsampling branch
    constructor
    · rw [List.Sorted, List.pairwise_map]
      have hpi : (sortedData.enum.filterMap (fun p =>
          if p.2.x ∈ (downsample (sortedData.filterMap (fun d =>
            (d.yValues.getD 0 none).map (fun y => (⟨d.x, y⟩ : DataPoint)))) MAX_DATA_POINTS).map DataPoint.x
          then some p.1 else none)).Pairwise (· < ·) := by
        rw [List.pairwise_filterMap]
        refine (pairwise_enum_fst sortedData).imp ?_
        intro p q hpq b hb b2 hb2
        split at hb
        · split at hb2
          · simp only [Option.mem_def, Option.some_inj] at hb hb2
            omega
          · simp at hb2
        · simp at hb
      have hbound : ∀ i ∈ (sortedData.enum.filterMap (fun p =>
          if p.2.x ∈ (downsample (sortedData.filterMap (fun d =>
            (d.yValues.getD 0 none).map (fun y => (⟨d.x, y⟩ : DataPoint)))) MAX_DATA_POINTS).map DataPoint.x
          then some p.1 else none)), i < sortedData.length := by
        intro i hi
        obtain ⟨p, hp, hsome⟩ := List.mem_filterMap.mp hi
        have hpi2 : p.1 = i := by
          split at hsome
          · simpa using hsome
          · simp at hsome
        rcases p with ⟨j, d⟩
        obtain ⟨hj, -⟩ := List.mem_enum hp
        simp only at hpi2
        omega
      refine hpi.imp_of_mem ?_
      intro a b ha hb hlt
      exact sorted_x_getD_le hs hlt (hbound b hb) _
    · intro ser hser
      simp only [List.mem_map] at hser
      obtain ⟨s0, hs0, rfl⟩ := hser
      simp
  · constructor
    · rw [List.Sorted, List.pairwise_map]
      exact hs.imp (fun h => h)
    · intro ser hser
      simp only [List.mem_map] at hser
      obtain ⟨p, hp, rfl⟩ := hser
      simp

/-- A successful `parseDatasetRows` yields sorted `xValues` and aligned
series lengths. -/
theorem parseDatasetRows_ok_sorted_aligned (rows : List (List (List Char)))
    (id label mime : List Char) (s : SpectrumData)
    (h : parseDatasetRows rows id label mime = Except.ok s) :
    List.Sorted (· ≤ ·) s.xValues ∧ ∀ ser ∈ s.series, ser.yValues.length = s.xValues.length := by
  unfold parseDatasetRows at h
  dsimp only at h
  split_ifs at h
  all_goals
    first
    | exact Except.noConfusion h
    | · injection h with h
        subst h
        exact buildSpectrum_sorted_aligned _ _ _ _ _ _ _
          (List.sorted_insertionSort rawRowLe _)

/-- Claim C9: every spectrum returned by a successful `parseDataset` has
`xValues` sorted in non-decreasing order, and every series carries exactly
`len(xValues)` y-values, positionally aligned with `xValues`. -/
theorem parseDataset_ok_sorted_aligned (content id label mime : List Char) (s : SpectrumData)
    (h : parseDataset content id label mime = Except.ok s) :
    List.Sorted (· ≤ ·) s.xValues ∧ ∀ ser ∈ s.series, ser.yValues.length = s.xValues.length := by
  unfold parseDataset at h
  split_ifs at h
  · exact parseDatasetRows_ok_sorted_aligned _ _ _ _ _ h
  · rcases hdet : detectDelimiter content with _ | d <;> rw [hdet] at h <;>
      exact parseDatasetRows_ok_sorted_aligned _ _ _ _ _ h

/-- The all-empty spectrum, used only as a formal default value. -/
def emptySpectrum : SpectrumData := ⟨[], [], [], [], [], [], [], none⟩

set_option maxRecDepth 100000 in
/-- Witness for claim C9 at the specification's Scenario A input. -/
theorem parseDataset_ok_sorted_aligned_witness :
    List.Sorted (· ≤ ·) ((parseDataset ("wavelength,intensity\n400,0.12\n410,0.15".toList)
        ("id".toList) ("lab".toList) ("text/csv".toList)).toOption.getD emptySpectrum).xValues ∧
    ∀ ser ∈ ((parseDataset ("wavelength,intensity\n400,0.12\n410,0.15".toList)
        ("id".toList) ("lab".toList) ("text/csv".toList)).toOption.getD emptySpectrum).series,
      ser.yValues.length = ((parseDataset ("wavelength,intensity\n400,0.12\n410,0.15".toList)
        ("id".toList) ("lab".toList) ("text/csv".toList)).toOption.getD emptySpectrum).xValues.length :=
  parseDataset_ok_sorted_aligned _ _ _ _ _
    (except_ok_of_isOk _ emptySpectrum (by with_unfolding_all decide))

/-- Reading position 0 of a non-empty replicated list gives the element. -/
theorem getD_replicate_of_pos {α : Type} {n : ℕ} (a d : α) (h : 1 ≤ n) :
    (List.replicate n a).getD 0 d = a := by
  cases n with
  | zero => omega
  | succ m => rw [List.replicate_succ, List.getD_cons_zero]

/-- `filterMap` over a replicated list whose element maps to `some b`
replicates `b`. -/
theorem filterMap_replicate_some {α β : Type} (f : α → Option β) (a : α) (b : β)
    (h : f a = some b) : ∀ n, (List.replicate n a).filterMap f = List.replicate n b := by
  intro n
  induction n with
  | zero => rfl
  | succ m ih => rw [List.replicate_succ, List.filterMap_cons, h, ih, List.replicate_succ]

/-- `filterMap` whose function returns `some (g a)` on every list element
is a `map`. -/
theorem filterMap_eq_map_of_some {α β : Type} (f : α → Option β) (g : α → β) :
    ∀ (l : List α), (∀ a ∈ l, f a = some (g a)) → l.filterMap f = l.map g := by
  intro l
  induction l with
  | nil => intro _; rfl
  | cons a t ih =>
    intro h
    rw [List.filterMap_cons, h a (by simp), List.map_cons,
      ih (fun x hx => h x (List.mem_cons_of_mem a hx))]

/-- Sorting a replicated list returns it unchanged. -/
theorem insertionSort_replicate {α : Type} (r : α → α → Prop) [DecidableRel r] (n : ℕ) (a : α) :
    List.insertionSort r (List.replicate n a) = List.replicate n a := by
  have hperm := List.perm_insertionSort r (List.replicate n a)
  refine List.eq_replicate_iff.mpr ⟨?_, ?_⟩
  · rw [hperm.length_eq, List.length_replicate]
  · intro b hb
    exact List.eq_of_mem_replicate (hperm.mem_iff.mp hb)

/-- Every pair enumerated from a replicated list carries the element. -/
theorem snd_of_mem_enum_replicate {α : Type} {n : ℕ} {r : α} {p : ℕ × α}
    (hp : p ∈ (List.replicate n r).enum) : p.2 = r := by
  rcases p with ⟨i, a⟩
  have h2 := (List.mem_enum hp).2
  rw [h2, List.getElem_replicate]

/-- When the target is exceeded, the first output point of `downsample` is
the first input point. -/
theorem downsample_head_of_lt (pts : List DataPoint) (t : ℕ) (h : t < pts.length) :
    (downsample pts t).head? = some (pts.getD 0 defaultPoint) := by
  unfold downsample
  rw [if_neg (by omega)]
  obtain ⟨-, ext, hext⟩ :=
    foldl_snoc_shape (lttbFoldStep pts (((pts.length : ℚ) - 2) / ((t : ℚ) - 2)))
      (fun acc i => ⟨_, _, rfl⟩) (List.range (t - 2)) ([pts.getD 0 defaultPoint], 0)
  rw [hext]
  simp

/-- The duplicate-x failing input: one data row `1,2`. -/
def dupRow : List (List Char) := [("1".toList), ("2".toList)]

/-- The surviving row extracted from `dupRow`. -/
def dupRaw : RawRow := ⟨1, [some 2]⟩

/-- The legacy point extracted from `dupRaw`. -/
def dupPt : DataPoint := ⟨1, 2⟩

/-- The synthesized headers for the header-less `dupRow` dataset. -/
def dupHeaders : List (List Char) := [("Column 1".toList), ("Column 2".toList)]

/-- The header scan finds no non-numeric row on the replicated `dupRow`
dataset. -/
theorem scanHeadersGo_dup (n : ℕ) : ∀ mc, scanHeadersGo (List.replicate n dupRow) mc 0 (-1) = -1 := by
  intro mc
  cases mc with
  | zero => rfl
  | succ f =>
    have hrow : isNonNumericRow ((List.replicate n dupRow).getD 0 []) = false := by
      cases n with
      | zero => decide
      | succ m => rw [List.replicate_succ, List.getD_cons_zero]; decide
    simp only [scanHeadersGo, hrow]
    norm_num

/-- Header extraction on the replicated `dupRow` dataset synthesizes the
default column names and keeps every row as data. -/
theorem headerSplit_dup (n : ℕ) (hn : 1 ≤ n) :
    headerSplit (List.replicate n dupRow) = (dupHeaders, List.replicate n dupRow) := by
  unfold headerSplit
  dsimp only
  rw [scanHeadersGo_dup]
  rw [if_neg (by norm_num)]
  rw [getD_replicate_of_pos _ _ hn]
  simp only [Prod.mk.injEq]
  refine ⟨by decide, trivial⟩

/-- On a replicated all-equal-x dataset exceeding the point limit, the
x-value-set index recovery of the downsampling branch selects every row,
so the built spectrum keeps all `n` points. -/
theorem buildSpectrum_dup_length (n : ℕ) (hn : MAX_DATA_POINTS < n) (id label mime : List Char) :
    (buildSpectrum id label mime dupHeaders 0 [1] (List.replicate n dupRaw)).xValues.length = n := by
  have hn1 : 1 ≤ n := by
    have : (0 : ℕ) < MAX_DATA_POINTS := by norm_num [MAX_DATA_POINTS]
    omega
  unfold buildSpectrum
  dsimp only
  have hpts : (List.replicate n dupRaw).filterMap (fun d =>
      (d.yValues.getD 0 none).map (fun y => (⟨d.x, y⟩ : DataPoint))) = List.replicate n dupPt :=
    filterMap_replicate_some _ _ _ (by with_unfolding_all decide) n
  rw [if_pos (by rw [List.length_map, List.length_replicate]; exact hn)]
  rw [hpts]
  have hhead := downsample_head_of_lt (List.replicate n dupPt) MAX_DATA_POINTS
    (by rw [List.length_replicate]; exact hn)
  have hmem : dupPt ∈ downsample (List.replicate n dupPt) MAX_DATA_POINTS := by
    apply List.mem_of_mem_head?
    rw [hhead, getD_replicate_of_pos _ _ hn1]
    rfl
  have hx1 : dupRaw.x ∈ (downsample (List.replicate n dupPt) MAX_DATA_POINTS).map DataPoint.x :=
    List.mem_map.mpr ⟨dupPt, hmem, rfl⟩
  have hidx : (List.replicate n dupRaw).enum.filterMap (fun p =>
      if p.2.x ∈ (downsample (List.replicate n dupPt) MAX_DATA_POINTS).map DataPoint.x
      then some p.1 else none) = (List.replicate n dupRaw).enum.map Prod.fst := by
    apply filterMap_eq_map_of_some
    intro p hp
    rw [if_pos]
    have hpr : p.2 = dupRaw := snd_of_mem_enum_replicate hp
    rw [hpr]
    exact hx1
  rw [hidx]
  simp [List.enum_length]

/-- `parseDatasetRows` on the replicated duplicate-x dataset reaches the
spectrum builder with every row surviving. -/
theorem parseDatasetRows_dup (n : ℕ) (hn : MAX_DATA_POINTS < n) (id label mime : List Char) :
    parseDatasetRows (List.replicate n dupRow) id label mime =
      Except.ok (buildSpectrum id label mime dupHeaders 0 [1] (List.replicate n dupRaw)) := by
  have hn1 : 1 ≤ n := by
    have : (0 : ℕ) < MAX_DATA_POINTS := by norm_num [MAX_DATA_POINTS]
    omega
  unfold parseDatasetRows
  dsimp only
  rw [List.length_replicate]
  rw [if_neg (by omega)]
  rw [headerSplit_dup n hn1]
  dsimp only
  rw [show classifyColumns dupHeaders = (0, [1]) from by decide]
  dsimp only
  rw [if_neg (by decide)]
  rw [filterMap_replicate_some (extractRow 0 [1]) dupRow dupRaw (by with_unfolding_all decide) n]
  rw [if_neg (by rw [List.isEmpty_replicate]; simp; omega)]
  rw [insertionSort_replicate]

/-- A character list not containing the separator splits into itself. -/
theorem splitOnChar_not_mem (sep : Char) :
    ∀ (l : List Char), sep ∉ l → splitOnChar sep l = [l] := by
  intro l
  induction l with
  | nil => intro _; rfl
  | cons a t ih =>
    intro h
    have hac : ¬ a = sep := fun e => h (by simp [e])
    have ht := ih (fun hm => h (List.mem_cons_of_mem a hm))
    simp only [splitOnChar, ht]
    rw [if_neg hac]

/-- Splitting a list that starts with a separator-free chunk followed by
the separator peels off that chunk. -/
theorem splitOnChar_append_cons (sep : Char) :
    ∀ (a rest : List Char), sep ∉ a →
      splitOnChar sep (a ++ sep :: rest) = a :: splitOnChar sep rest := by
  intro a
  induction a with
  | nil =>
    intro rest _
    simp [splitOnChar]
  | cons x t ih =>
    intro rest h
    have hx : ¬ x = sep := fun e => h (by simp [e])
    simp only [List.cons_append, splitOnChar, List.append_eq]
    rw [ih rest (fun hm => h (List.mem_cons_of_mem x hm))]
    rw [if_neg hx]

/-- The duplicate-x failing content, built from `k + 1` lines `1<TAB>2`
joined by newlines. -/
def dupContentAux : ℕ → List Char
  | 0 => "1\t2".toList
  | k + 1 => ("1\t2".toList) ++ '\n' :: dupContentAux k

/-- The concrete failing input for claim C1: 10001 newline-separated
copies of the line `1<TAB>2` (all x values identical). -/
def dupContent : List Char := dupContentAux 10000

/-- Splitting the failing content at newlines yields the replicated line. -/
theorem splitOnChar_dupContentAux (k : ℕ) :
    splitOnChar '\n' (dupContentAux k) = List.replicate (k + 1) ("1\t2".toList) := by
  induction k with
  | zero => rfl
  | succ m ih =>
    show splitOnChar '\n' (("1\t2".toList) ++ '\n' :: dupContentAux m) = _
    rw [splitOnChar_append_cons '\n' _ _ (by decide), ih]
    simp [List.replicate_succ]

/-- CSV row splitting of the failing content gives the replicated row. -/
theorem papaParse_dupContent : papaParse '\t' dupContent = List.replicate 10001 dupRow := by
  unfold papaParse dupContent
  rw [splitOnChar_dupContentAux]
  rw [List.map_replicate]
  rw [show dropTrailingCR ("1\t2".toList) = "1\t2".toList from by decide]
  rw [List.filter_replicate]
  rw [if_pos (by decide)]
  rw [List.map_replicate]
  rw [show splitOnChar '\t' ("1\t2".toList) = dupRow from by decide]

/-- Delimiter detection on the failing content selects the tab. -/
theorem detectDelimiter_dupContent : detectDelimiter dupContent = some '\t' := by
  have hfl : firstNonBlankLine dupContent = "1\t2".toList := by
    unfold firstNonBlankLine dupContent
    rw [splitOnChar_dupContentAux]
    rw [List.map_replicate]
    rw [show charTrim ("1\t2".toList) = "1\t2".toList from by decide]
    rw [List.find?_replicate]
    norm_num
  unfold detectDelimiter
  rw [hfl]
  decide

/-- Claim C1 fails on the code: on `dupContent` (10001 rows, every row
`1<TAB>2`, so all x values are identical), `parseDataset` succeeds, the
downsampling branch runs, yet the x-value-set index recovery re-selects
every one of the 10001 rows, so the returned spectrum violates
`len(xValues) <= MAX_DATA_POINTS`. -/
theorem parseDataset_dup_overflow :
    ∃ s, parseDataset dupContent ("id".toList) ("lab".toList) ("text/csv".toList) = Except.ok s ∧
      MAX_DATA_POINTS < s.xValues.length := by
  refine ⟨buildSpectrum ("id".toList) ("lab".toList) ("text/csv".toList) dupHeaders 0 [1]
    (List.replicate 10001 dupRaw), ?_, ?_⟩
  · unfold parseDataset
    rw [if_neg (by decide)]
    rw [detectDelimiter_dupContent]
    dsimp only
    rw [papaParse_dupContent]
    exact parseDatasetRows_dup 10001 (by norm_num [MAX_DATA_POINTS]) _ _ _
  · rw [buildSpectrum_dup_length 10001 (by norm_num [MAX_DATA_POINTS])]
    norm_num [MAX_DATA_POINTS]

/-- The allowed MIME types (`ALLOWED_MIME_TYPES`, src/types/dataset.ts). -/
def ALLOWED_MIME_TYPES : List (List Char) :=
  [("text/csv".toList), ("text/plain".toList), ("text/tab-separated-values".toList)]

/-- MIME check for the caller-declared type (`isAllowedMimeType`,
src/types/dataset.ts lines 15-19): falsy strings are rejected, the value
is stripped of parameters, trimmed, lowercased, and tested for exact
membership. -/
def isAllowedMimeType (mime : List Char) : Bool :=
  if mime.isEmpty then false
  else
    let baseMime := (charTrim ((splitOnChar ';' mime).getD 0 [])).map Char.toLower
    ALLOWED_MIME_TYPES.any (fun a => baseMime == a)

/-- Model of `String.prototype.replace` with a plain-string pattern: only
the first occurrence is replaced. -/
def replaceFirst (pat repl : List Char) : List Char → List Char
  | [] => if pat.isEmpty then repl else []
  | c :: rest =>
    if pat.isPrefixOf (c :: rest) then repl ++ (c :: rest).drop pat.length
    else c :: replaceFirst pat repl rest

/-- Content-Type check for the server response (`validateContentType`,
src/utils/security.ts lines 49-53): the base MIME passes when it equals an
allowed type or merely starts with it (after the `'/*' -> '/'` rewrite,
which leaves the current allowlist unchanged). -/
def validateContentType (contentType : Option (List Char)) (allowedTypes : List (List Char)) : Bool :=
  match contentType with
  | none => false
  | some ct =>
    let baseMime := (charTrim ((splitOnChar ';' ct).getD 0 [])).map Char.toLower
    allowedTypes.any (fun allowed =>
      baseMime == allowed ||
        (replaceFirst ("/*".toList) ("/".toList) allowed).isPrefixOf baseMime)

/-- Model of `isValidUrl` (src/utils/security.ts lines 12-19): `new URL`
parsing with the http/https protocol allowlist is modelled as a scheme
check on the URL text (sufficient for the URLs considered here). -/
def isValidUrl (url : List Char) : Bool :=
  ("http://".toList).isPrefixOf url || ("https://".toList).isPrefixOf url

/-- A cache entry (`CacheEntry`, src/types/dataset.ts). -/
structure CacheEntry where
  data : SpectrumData
  timestamp : ℤ
  expiresAt : ℤ
deriving DecidableEq

/-- Lookup in a JS `Map` modelled as an association list. -/
def mapLookup {β : Type} (k : List Char) (m : List (List Char × β)) : Option β :=
  (m.find? (fun kv => kv.1 == k)).map Prod.snd

/-- `Map.set`: bind `k` to `v`, overwriting any previous binding. -/
def mapSet {β : Type} (k : List Char) (v : β) (m : List (List Char × β)) : List (List Char × β) :=
  (k, v) :: m.filter (fun kv => kv.1 != k)

/-- `Map.delete`: remove the binding of `k`. -/
def mapDelete {β : Type} (k : List Char) (m : List (List Char × β)) : List (List Char × β) :=
  m.filter (fun kv => kv.1 != k)

/-- The state of the `DatasetCacheService` singleton
(src/services/datasetCache.ts lines 9-11): the entry map and the
pending-request map.  A pending promise is identified by a number; the
`finally` callbacks attached by `setPendingRequest` (lines 54-56) are kept
as promise-to-url pairs so that settling a promise can run them. -/
structure CacheState where
  cache : List (List Char × CacheEntry)
  pendingRequests : List (List Char × ℕ)
  pendingCallbacks : List (ℕ × List Char)
deriving DecidableEq

/-- `DatasetCacheService.get` (src/services/datasetCache.ts lines 16-26):
returns the data if present and unexpired; lazily evicts and returns null
when `now > expiresAt`.  `Date.now()` is the explicit `now` argument. -/
def cacheGet (url : List Char) (now : ℤ) (s : CacheState) : Option SpectrumData × CacheState :=
  match mapLookup url s.cache with
  | none => (none, s)
  | some entry =>
    if entry.expiresAt < now then (none, { s with cache := mapDelete url s.cache })
    else (some entry.data, s)

/-- `DatasetCacheService.set` (src/services/datasetCache.ts lines 31-38):
stores the data with `expiresAt = now + CACHE_TTL`, overwriting any prior
entry. -/
def cacheSet (url : List Char) (data : SpectrumData) (now : ℤ) (s : CacheState) : CacheState :=
  { s with cache := mapSet url ⟨data, now, now + CACHE_TTL⟩ s.cache }

/-- `DatasetCacheService.getPendingRequest`
(src/services/datasetCache.ts lines 43-45). -/
def getPendingRequest (url : List Char) (s : CacheState) : Option ℕ :=
  mapLookup url s.pendingRequests

/-- `DatasetCacheService.setPendingRequest`
(src/services/datasetCache.ts lines 50-57): registers the promise under
the URL and attaches the `finally` cleanup callback. -/
def setPendingRequest (url : List Char) (p : ℕ) (s : CacheState) : CacheState :=
  { s with pendingRequests := mapSet url p s.pendingRequests,
           pendingCallbacks := (p, url) :: s.pendingCallbacks }

/-- `DatasetCacheService.has` (src/services/datasetCache.ts lines 62-64). -/
def cacheHas (url : List Char) (s : CacheState) : Bool :=
  (mapLookup url s.cache).isSome

/-- `DatasetCacheService.delete` (src/services/datasetCache.ts lines 69-71). -/
def cacheDelete (url : List Char) (s : CacheState) : CacheState :=
  { s with cache := mapDelete url s.cache }

/-- `DatasetCacheService.clear` (src/services/datasetCache.ts lines 76-79):
clears both the entry map and the pending-request map. -/
def cacheClear (s : CacheState) : CacheState :=
  { s with cache := [], pendingRequests := [] }

/-- `DatasetCacheService.cleanup` (src/services/datasetCache.ts lines
94-101): remove every entry with `now > expiresAt`. -/
def cacheCleanup (now : ℤ) (s : CacheState) : CacheState :=
  { s with cache := s.cache.filter (fun kv => !(decide (kv.2.expiresAt < now))) }

/-- A settled JS error value: whether it is an `Error` instance, its
`name` and its `message`. -/
structure JsError where
  isErrorInstance : Bool
  name : List Char
  message : List Char
deriving DecidableEq

/-- The settlement of a fetch-and-parse promise: the parsed spectrum on
fulfilment, a `JsError` on rejection (including abort). -/
abbrev JsSettle := Except JsError SpectrumData

/-- Settling promise `p`: every `finally` callback attached for `p` by
`setPendingRequest` deletes its URL from the pending map, regardless of
the outcome (the outcome argument is deliberately unused by the cleanup,
as in `promise.finally`). -/
def settlePromise (p : ℕ) (outcome : JsSettle) (s : CacheState) : CacheState :=
  { s with
    pendingRequests := s.pendingRequests.filter (fun kv => !(decide ((p, kv.1) ∈ s.pendingCallbacks))),
    pendingCallbacks := s.pendingCallbacks.filter (fun cb => cb.1 != p) }

/-- The fetcher-level mutable state: the cache service state, the
per-URL abort controller registry (src/services/datasetFetcher.ts line
13), a counter of network requests issued, and the next fresh promise
identifier. -/
structure FetcherState where
  cacheState : CacheState
  abortControllerUrls : List (List Char)
  networkCalls : ℕ
  nextPromiseId : ℕ
deriving DecidableEq

/-- The status field of `DatasetFetchResult` (the `idle`/`loading` values
are never produced by `fetchDataset`). -/
inductive FetchStatus where
  | success
  | error
deriving DecidableEq

/-- `DatasetFetchResult` (src/types/dataset.ts lines 66-70). -/
structure DatasetFetchResult where
  status : FetchStatus
  data : Option SpectrumData
  errorMessage : Option (List Char)
deriving DecidableEq

/-- Where a `fetchDataset` call stands after its synchronous prefix:
finished immediately (validation failure or cache hit), suspended on an
existing pending promise (coalesced), or suspended on its own new
fetch-and-parse promise. -/
inductive FetchPhase where
  | immediate (r : DatasetFetchResult)
  | awaitCoalesced (p : ℕ)
  | awaitOwn (p : ℕ)
deriving DecidableEq

/-- The synchronous prefix of `fetchDataset`
(src/services/datasetFetcher.ts lines 40-89), which runs atomically up to
the first `await`: URL and MIME validation, the cache probe, the
pending-request probe, and otherwise creation of the abort controller,
the start of `performFetch` (this issues the network request) and the
pending-request registration. -/
def fetchDatasetStart (url declaredMimeType : List Char) (now : ℤ) (s : FetcherState) :
    FetchPhase × FetcherState :=
  if ¬ isValidUrl url then
    (.immediate ⟨.error, none, some ("Invalid URL: Only http/https protocols are allowed".toList)⟩, s)
  else if ¬ isAllowedMimeType declaredMimeType then
    (.immediate ⟨.error, none,
      some (("Unsupported MIME type: ".toList) ++ declaredMimeType ++ (". Allowed: ".toList) ++
        List.intercalate (", ".toList) ALLOWED_MIME_TYPES)⟩, s)
  else
    match cacheGet url now s.cacheState with
    | (some data, cs1) => (.immediate ⟨.success, some data, none⟩, { s with cacheState := cs1 })
    | (none, cs1) =>
      match getPendingRequest url cs1 with
      | some p => (.awaitCoalesced p, { s with cacheState := cs1 })
      | none =>
        let p := s.nextPromiseId
        (.awaitOwn p,
         { s with
           cacheState := setPendingRequest url p cs1,
           abortControllerUrls := url :: s.abortControllerUrls.filter (fun u => u != url),
           networkCalls := s.networkCalls + 1,
           nextPromiseId := p + 1 })

/-- How the caller that started the fetch maps the settlement of its own
promise to a `DatasetFetchResult` (src/services/datasetFetcher.ts lines
88-101): `AbortError` becomes `Request aborted`; other `Error` instances
contribute their message; anything else the generic message. -/
def resolveOwn (o : JsSettle) : DatasetFetchResult :=
  match o with
  | .ok d => ⟨.success, some d, none⟩
  | .error e =>
    if e.isErrorInstance && e.name == ("AbortError".toList) then
      ⟨.error, none, some ("Request aborted".toList)⟩
    else if e.isErrorInstance then ⟨.error, none, some e.message⟩
    else ⟨.error, none, some ("Failed to fetch dataset".toList)⟩

/-- How a coalesced caller maps the settlement of the shared pending
promise to a `DatasetFetchResult` (src/services/datasetFetcher.ts lines
69-79). -/
def resolveCoalesced (o : JsSettle) : DatasetFetchResult :=
  match o with
  | .ok d => ⟨.success, some d, none⟩
  | .error e =>
    ⟨.error, none, some (if e.isErrorInstance then e.message else ("Request failed".toList))⟩

/-- An HTTP response as `performFetch` observes it: status, the
`Content-Type` and `Content-Length` headers, and the body as a list of
decoded text chunks (`none` models an unreadable body). -/
structure JsResponse where
  ok : Bool
  status : ℕ
  statusText : List Char
  contentType : Option (List Char)
  contentLength : Option (List Char)
  bodyChunks : Option (List (List Char))
deriving DecidableEq

/-- UTF-8 byte size of a decoded chunk (`value.length` of the raw
`Uint8Array` chunk for well-formed UTF-8 input). -/
def chunkByteSize (chunk : List Char) : ℕ :=
  (chunk.map Char.utf8Size).sum

/-- The streaming size enforcement loop
(src/services/datasetFetcher.ts lines 148-163): accumulate chunk sizes and
abort as soon as the running total exceeds `MAX_DATASET_SIZE`. -/
def readExceeds : List (List Char) → ℕ → Bool
  | [], _ => false
  | c :: rest, total =>
    let t := total + chunkByteSize c
    if MAX_DATASET_SIZE < t then true else readExceeds rest t

/-- `performFetch` (src/services/datasetFetcher.ts lines 107-180) over an
abstract response: HTTP status check, server Content-Type validation,
Content-Length pre-flight check (a non-numeric header parses to `NaN`,
whose comparison is false, as in JS), streamed size enforcement, UTF-8
decode (chunk concatenation), parse, and — only on success — the cache
write.  Returns the settlement value together with the resulting cache
state. -/
def performFetch (url declaredMimeType label : List Char) (resp : JsResponse) (now : ℤ)
    (cs : CacheState) : Except (List Char) SpectrumData × CacheState :=
  if ¬ resp.ok then
    (.error (("HTTP ".toList) ++ (toString resp.status).toList ++ (": ".toList) ++ resp.statusText), cs)
  else if (match resp.contentType with
           | some ct => !ct.isEmpty && !validateContentType (some ct) ALLOWED_MIME_TYPES
           | none => false) then
    (.error (("Server returned invalid Content-Type: ".toList) ++ resp.contentType.getD []), cs)
  else if (match resp.contentLength with
           | some cl =>
             !cl.isEmpty &&
               (match jsParseInt cl with
                | some v => decide ((MAX_DATASET_SIZE : ℤ) < v)
                | none => false)
           | none => false) then
    (.error (("Dataset too large: ".toList) ++ (resp.contentLength.getD []) ++
      (" bytes (max: ".toList) ++ (toString MAX_DATASET_SIZE).toList ++ (")".toList)), cs)
  else
    match resp.bodyChunks with
    | none => (.error ("Unable to read response body".toList), cs)
    | some chunks =>
      if readExceeds chunks 0 then
        (.error (("Dataset exceeds maximum size of ".toList) ++
          (toString MAX_DATASET_SIZE).toList ++ (" bytes".toList)), cs)
      else
        let content := chunks.foldl (fun acc c => acc ++ c) []
        let actualMimeType :=
          match resp.contentType with
          | none => declaredMimeType
          | some ct =>
            let v := charTrim ((splitOnChar ';' ct).getD 0 [])
            if v.isEmpty then declaredMimeType else v
        match parseDataset content url label actualMimeType with
        | .error e => (.error e, cs)
        | .ok d => (.ok d, cacheSet url d now cs)

/-- Looking up the key just set returns the new value. -/
theorem mapLookup_mapSet_self {β : Type} (k : List Char) (v : β) (m : List (List Char × β)) :
    mapLookup k (mapSet k v m) = some v := by
  unfold mapLookup mapSet
  rw [List.find?_cons_of_pos _ (by simp)]
  rfl

/-- Looking up a key just deleted returns nothing. -/
theorem mapLookup_mapDelete_self {β : Type} (k : List Char) (m : List (List Char × β)) :
    mapLookup k (mapDelete k m) = none := by
  unfold mapLookup mapDelete
  rw [List.find?_eq_none.mpr]
  · rfl
  · intro kv hkv hbeq
    have hmem := List.mem_filter.mp hkv
    have hk : kv.1 = k := by simpa using hbeq
    rw [hk] at hmem
    simp at hmem

/-- Claim C6: `set(url, data)` stores an entry expiring `CACHE_TTL`
(30 minutes) after the set time, overwriting any prior entry; a later
`get(url)` returns the same data while `now ≤ expiresAt` and, once
`now > expiresAt`, deletes the entry and returns null. -/
theorem cacheSet_get_ttl (s : CacheState) (url : List Char) (d : SpectrumData) (now t : ℤ) :
    mapLookup url (cacheSet url d now s).cache = some ⟨d, now, now + CACHE_TTL⟩ ∧
    (t ≤ now + CACHE_TTL →
      cacheGet url t (cacheSet url d now s) = (some d, cacheSet url d now s)) ∧
    (now + CACHE_TTL < t →
      cacheGet url t (cacheSet url d now s) =
        (none, { cacheSet url d now s with cache := mapDelete url (cacheSet url d now s).cache }) ∧
      mapLookup url (cacheGet url t (cacheSet url d now s)).2.cache = none) := by
  have hlook : mapLookup url (cacheSet url d now s).cache = some ⟨d, now, now + CACHE_TTL⟩ :=
    mapLookup_mapSet_self url _ _
  refine ⟨hlook, ?_, ?_⟩
  · intro ht
    unfold cacheGet
    rw [hlook]
    dsimp only
    rw [if_neg (by omega)]
  · intro ht
    have hget : cacheGet url t (cacheSet url d now s) =
        (none, { cacheSet url d now s with cache := mapDelete url (cacheSet url d now s).cache }) := by
      unfold cacheGet
      rw [hlook]
      dsimp only
      rw [if_pos (by omega)]
    refine ⟨hget, ?_⟩
    rw [hget]
    exact mapLookup_mapDelete_self url _

/-- Witness for claim C6: a concrete set followed by an in-TTL get that
returns the data and a post-TTL get that evicts and returns null. -/
theorem cacheSet_get_ttl_witness :
    (cacheGet ("u".toList) 100 (cacheSet ("u".toList) emptySpectrum 0 ⟨[], [], []⟩) =
      (some emptySpectrum, cacheSet ("u".toList) emptySpectrum 0 ⟨[], [], []⟩)) ∧
    mapLookup ("u".toList)
      (cacheGet ("u".toList) (CACHE_TTL + 1)
        (cacheSet ("u".toList) emptySpectrum 0 ⟨[], [], []⟩)).2.cache = none :=
  ⟨(cacheSet_get_ttl ⟨[], [], []⟩ ("u".toList) emptySpectrum 0 100).2.1
      (by norm_num [CACHE_TTL]),
   ((cacheSet_get_ttl ⟨[], [], []⟩ ("u".toList) emptySpectrum 0 (CACHE_TTL + 1)).2.2
      (by norm_num)).2⟩

/-- Claim C7: every registration made by `setPendingRequest(url, future)`
carries a completion callback, and settling the future — whatever the
outcome — removes the registration for that URL from the pending map. -/
theorem pendingRegistration_cleared_on_settle (s s2 : CacheState) (url : List Char) (p : ℕ)
    (o : JsSettle) :
    ((p, url) ∈ (setPendingRequest url p s).pendingCallbacks) ∧
    ((p, url) ∈ s2.pendingCallbacks → getPendingRequest url (settlePromise p o s2) = none) := by
  constructor
  · simp [setPendingRequest]
  · intro hmem
    unfold getPendingRequest settlePromise mapLookup
    dsimp only
    rw [List.find?_eq_none.mpr]
    · rfl
    · intro kv hkv hbeq
      have hflt := (List.mem_filter.mp hkv).2
      have hk : kv.1 = url := by simpa using hbeq
      rw [hk] at hflt
      simp [hmem] at hflt

/-- Witness for claim C7: a concrete registration is present and is gone
after the promise settles (here with an error outcome). -/
theorem pendingRegistration_cleared_on_settle_witness :
    ((0, ("u".toList)) ∈ (setPendingRequest ("u".toList) 0 ⟨[], [], []⟩).pendingCallbacks) ∧
    getPendingRequest ("u".toList)
      (settlePromise 0 (Except.error ⟨true, ("AbortError".toList), ("aborted".toList)⟩)
        (setPendingRequest ("u".toList) 0 ⟨[], [], []⟩)) = none :=
  ⟨(pendingRegistration_cleared_on_settle ⟨[], [], []⟩ (setPendingRequest ("u".toList) 0 ⟨[], [], []⟩)
      ("u".toList) 0 (Except.error ⟨true, ("AbortError".toList), ("aborted".toList)⟩)).1,
   (pendingRegistration_cleared_on_settle ⟨[], [], []⟩ (setPendingRequest ("u".toList) 0 ⟨[], [], []⟩)
      ("u".toList) 0 (Except.error ⟨true, ("AbortError".toList), ("aborted".toList)⟩)).2
      (by decide)⟩

/-- `performFetch` either leaves the cache untouched or succeeds and
writes exactly the parsed spectrum for its URL. -/
theorem performFetch_cases (url dm label : List Char) (resp : JsResponse) (now : ℤ)
    (cs : CacheState) :
    (performFetch url dm label resp now cs).2 = cs ∨
    ∃ d, (performFetch url dm label resp now cs).1 = .ok d ∧
      (performFetch url dm label resp now cs).2 = cacheSet url d now cs := by
  unfold performFetch
  dsimp only
  repeat' split
  all_goals
    first
      | exact Or.inl rfl
      | exact Or.inr ⟨_, rfl, rfl⟩

/-- Claim C8: whenever the fetch-and-parse pipeline fails at any step
after validation, the dataset cache is left unchanged — the cache write
happens only after a successful parse. -/
theorem performFetch_error_cache_unchanged (url dm label : List Char) (resp : JsResponse)
    (now : ℤ) (cs : CacheState) (e : List Char)
    (h : (performFetch url dm label resp now cs).1 = .error e) :
    (performFetch url dm label resp now cs).2 = cs := by
  rcases performFetch_cases url dm label resp now cs with h2 | ⟨d, hok, -⟩
  · exact h2
  · rw [hok] at h
    exact Except.noConfusion h

/-- The Scenario F response: success status but `Content-Type: text/html`
with a parseable body. -/
def respHtml : JsResponse :=
  ⟨true, 200, [], some ("text/html".toList), none, some [("x,y\n1,2".toList)]⟩

/-- Witness for claim C8 at Scenario F: the `text/html` response fails and
writes no cache entry. -/
theorem performFetch_error_cache_unchanged_witness :
    (performFetch ("http://a".toList) ("text/csv".toList) ("lab".toList) respHtml 0
      ⟨[], [], []⟩).2 = ⟨[], [], []⟩ :=
  performFetch_error_cache_unchanged ("http://a".toList) ("text/csv".toList) ("lab".toList)
    respHtml 0 ⟨[], [], []⟩
    (("Server returned invalid Content-Type: ".toList) ++ ("text/html".toList))
    (by with_unfolding_all decide)

/-- A `fetchDataset` call with valid inputs, a cache miss and no pending
request registers a fresh promise, issues one network request and
suspends on its own promise. -/
theorem fetchDatasetStart_fresh (url m : List Char) (now : ℤ) (s : FetcherState)
    (hu : isValidUrl url = true) (hm : isAllowedMimeType m = true)
    (hc : mapLookup url s.cacheState.cache = none)
    (hp : getPendingRequest url s.cacheState = none) :
    fetchDatasetStart url m now s =
      (.awaitOwn s.nextPromiseId,
       { s with
         cacheState := setPendingRequest url s.nextPromiseId s.cacheState,
         abortControllerUrls := url :: s.abortControllerUrls.filter (fun u => u != url),
         networkCalls := s.networkCalls + 1,
         nextPromiseId := s.nextPromiseId + 1 }) := by
  have hget : cacheGet url now s.cacheState = (none, s.cacheState) := by
    unfold cacheGet
    rw [hc]
  unfold fetchDatasetStart
  rw [if_neg (by simp [hu]), if_neg (by simp [hm]), hget]
  dsimp only
  rw [hp]

/-- Claim C2: a second `fetchDataset` call for the same URL, issued after
a first call has started its network request and before that request
settles, issues no new network request: it attaches to the pending
promise of the first call, leaves the state untouched, and the two
callers' result mappings agree on status and data for every settlement of
the single shared fetch-and-parse pass. -/
theorem fetchDataset_coalesces (url m : List Char) (now now2 : ℤ) (s : FetcherState)
    (hu : isValidUrl url = true) (hm : isAllowedMimeType m = true)
    (hc : mapLookup url s.cacheState.cache = none)
    (hp : getPendingRequest url s.cacheState = none) :
    (fetchDatasetStart url m now s).1 = .awaitOwn s.nextPromiseId ∧
    (fetchDatasetStart url m now s).2.networkCalls = s.networkCalls + 1 ∧
    (fetchDatasetStart url m now2 (fetchDatasetStart url m now s).2).1 =
      .awaitCoalesced s.nextPromiseId ∧
    (fetchDatasetStart url m now2 (fetchDatasetStart url m now s).2).2 =
      (fetchDatasetStart url m now s).2 ∧
    (∀ o : JsSettle, (resolveOwn o).status = (resolveCoalesced o).status ∧
      (resolveOwn o).data = (resolveCoalesced o).data) := by
  have h1 := fetchDatasetStart_fresh url m now s hu hm hc hp
  set s1 : FetcherState := { s with
    cacheState := setPendingRequest url s.nextPromiseId s.cacheState,
    abortControllerUrls := url :: s.abortControllerUrls.filter (fun u => u != url),
    networkCalls := s.networkCalls + 1,
    nextPromiseId := s.nextPromiseId + 1 } with hs1
  have hcache1 : mapLookup url s1.cacheState.cache = none := hc
  have hget2 : cacheGet url now2 s1.cacheState = (none, s1.cacheState) := by
    unfold cacheGet
    rw [hcache1]
  have hp2 : getPendingRequest url s1.cacheState = some s.nextPromiseId :=
    mapLookup_mapSet_self url _ _
  have h2 : fetchDatasetStart url m now2 s1 = (.awaitCoalesced s.nextPromiseId, s1) := by
    unfold fetchDatasetStart
    rw [if_neg (by simp [hu]), if_neg (by simp [hm]), hget2]
    dsimp only
    rw [hp2]
  refine ⟨by rw [h1], by rw [h1], ?_, ?_, ?_⟩
  · rw [h1]
    dsimp only
    rw [h2]
  · rw [h1]
    dsimp only
    rw [h2]
  · intro o
    rcases o with e | d
    · constructor <;> (unfold resolveOwn resolveCoalesced; dsimp only; split_ifs <;> rfl)
    · exact ⟨rfl, rfl⟩

/-- The empty fetcher state used by concrete witnesses. -/
def emptyFetcherState : FetcherState := ⟨⟨[], [], []⟩, [], 0, 0⟩

/-- Witness for claim C2 on a concrete URL in the empty state. -/
theorem fetchDataset_coalesces_witness :
    (fetchDatasetStart ("http://a".toList) ("text/csv".toList) 0 emptyFetcherState).1 =
      .awaitOwn emptyFetcherState.nextPromiseId ∧
    (fetchDatasetStart ("http://a".toList) ("text/csv".toList) 0 emptyFetcherState).2.networkCalls =
      emptyFetcherState.networkCalls + 1 ∧
    (fetchDatasetStart ("http://a".toList) ("text/csv".toList) 1
      (fetchDatasetStart ("http://a".toList) ("text/csv".toList) 0 emptyFetcherState).2).1 =
      .awaitCoalesced emptyFetcherState.nextPromiseId ∧
    (fetchDatasetStart ("http://a".toList) ("text/csv".toList) 1
      (fetchDatasetStart ("http://a".toList) ("text/csv".toList) 0 emptyFetcherState).2).2 =
      (fetchDatasetStart ("http://a".toList) ("text/csv".toList) 0 emptyFetcherState).2 ∧
    (∀ o : JsSettle, (resolveOwn o).status = (resolveCoalesced o).status ∧
      (resolveOwn o).data = (resolveCoalesced o).data) :=
  fetchDataset_coalesces ("http://a".toList) ("text/csv".toList) 0 1 emptyFetcherState
    (by decide) (by decide) (by decide) (by decide)

/-- Claim C10: `cache.clear()` empties the pending-request registry as
well as the entry store: after it, `getPendingRequest` returns null even
for a fetch still in flight, so a subsequent `fetchDataset` for that URL
starts a second network request instead of coalescing. -/
theorem cacheClear_drops_pending_and_refetches (s : FetcherState) (url m : List Char) (now : ℤ)
    (hu : isValidUrl url = true) (hm : isAllowedMimeType m = true) :
    getPendingRequest url (cacheClear s.cacheState) = none ∧
    (fetchDatasetStart url m now { s with cacheState := cacheClear s.cacheState }).1 =
      .awaitOwn s.nextPromiseId ∧
    (fetchDatasetStart url m now { s with cacheState := cacheClear s.cacheState }).2.networkCalls =
      s.networkCalls + 1 := by
  have h := fetchDatasetStart_fresh url m now { s with cacheState := cacheClear s.cacheState }
    hu hm rfl rfl
  exact ⟨rfl, by rw [h], by rw [h]⟩

/-- Witness for claim C10: a state with an in-flight pending request for
the URL, cleared, then fetched again. -/
theorem cacheClear_drops_pending_and_refetches_witness :
    getPendingRequest ("http://a".toList)
      (cacheClear (setPendingRequest ("http://a".toList) 0 ⟨[], [], []⟩)) = none ∧
    (fetchDatasetStart ("http://a".toList) ("text/csv".toList) 0
      { (⟨setPendingRequest ("http://a".toList) 0 ⟨[], [], []⟩, [("http://a".toList)], 1, 1⟩ : FetcherState) with
        cacheState := cacheClear (setPendingRequest ("http://a".toList) 0 ⟨[], [], []⟩) }).1 =
      .awaitOwn 1 ∧
    (fetchDatasetStart ("http://a".toList) ("text/csv".toList) 0
      { (⟨setPendingRequest ("http://a".toList) 0 ⟨[], [], []⟩, [("http://a".toList)], 1, 1⟩ : FetcherState) with
        cacheState := cacheClear (setPendingRequest ("http://a".toList) 0 ⟨[], [], []⟩) }).2.networkCalls =
      1 + 1 :=
  cacheClear_drops_pending_and_refetches
    ⟨setPendingRequest ("http://a".toList) 0 ⟨[], [], []⟩, [("http://a".toList)], 1, 1⟩
    ("http://a".toList) ("text/csv".toList) 0 (by decide) (by decide)

/-- A response whose Content-Type `text/csvx` is not one of the allowed
types but has one of them as a prefix, with a well-formed body. -/
def respCsvX : JsResponse :=
  ⟨true, 200, [], some ("text/csvx".toList), none, some [("x,y\n1,2\n2,3".toList)]⟩

/-- Claim C3 as stated is false: the server value `text/csvx` is not
exactly one of the allowed types, yet `validateContentType` accepts it
(its check is prefix matching, not exact membership), and the fetch on
such a response succeeds instead of failing with ContentTypeMismatch. -/
theorem validateContentType_exactness_counterexample :
    validateContentType (some ("text/csvx".toList)) ALLOWED_MIME_TYPES = true ∧
    (ALLOWED_MIME_TYPES.all (fun a => !(("text/csvx".toList) == a))) = true ∧
    (performFetch ("http://a".toList) ("text/csv".toList) ("lab".toList) respCsvX 0
      ⟨[], [], []⟩).1.isOk = true := by
  refine ⟨by decide, by decide, by with_unfolding_all decide⟩

/-- Claim C3 (amended): whenever a success-status response carries a
Content-Type whose value, with any parameter suffix stripped, trimmed and
lowercased, does not start with any of `text/csv`, `text/plain`,
`text/tab-separated-values`, the fetch fails with the
ContentTypeMismatch error; the check uses the server's Content-Type
value, independent of the caller's declared MIME type. -/
theorem performFetch_contentTypeMismatch (url dm label : List Char) (resp : JsResponse)
    (now : ℤ) (cs : CacheState) (ct : List Char)
    (hok : resp.ok = true)
    (hct : resp.contentType = some ct)
    (hne : ct.isEmpty = false)
    (hpre : ∀ a ∈ ALLOWED_MIME_TYPES,
      a.isPrefixOf ((charTrim ((splitOnChar ';' ct).getD 0 [])).map Char.toLower) = false) :
    (performFetch url dm label resp now cs).1 =
      .error (("Server returned invalid Content-Type: ".toList) ++ ct) := by
  have hval : validateContentType (some ct) ALLOWED_MIME_TYPES = false := by
    unfold validateContentType
    dsimp only
    rw [List.any_eq_false]
    intro a ha hor
    rw [Bool.or_eq_true] at hor
    have hrepl : replaceFirst ("/*".toList) ("/".toList) a = a := by
      rcases (by simpa [ALLOWED_MIME_TYPES] using ha :
        a = ("text/csv".toList) ∨ a = ("text/plain".toList) ∨
          a = ("text/tab-separated-values".toList)) with rfl | rfl | rfl <;> decide
    rcases hor with heq | hpref
    · have haeq : (charTrim ((splitOnChar ';' ct).getD 0 [])).map Char.toLower = a :=
        beq_iff_eq.mp heq
      have hfalse := hpre a ha
      rw [haeq] at hfalse
      have htrue : a.isPrefixOf a = true := List.isPrefixOf_iff_prefix.mpr (List.prefix_refl a)
      rw [htrue] at hfalse
      exact Bool.noConfusion hfalse
    · rw [hrepl] at hpref
      rw [hpre a ha] at hpref
      exact Bool.noConfusion hpref
  unfold performFetch
  rw [if_neg (by simp [hok])]
  rw [hct]
  dsimp only
  rw [hne, hval]
  rw [if_pos (by decide : (!false && !false) = true)]
  rfl

set_option maxRecDepth 10000 in
/-- Witness for the amended claim C3 at Scenario F (`text/html`). -/
theorem performFetch_contentTypeMismatch_witness :
    (performFetch ("http://a".toList) ("text/csv".toList) ("lab".toList) respHtml 0
      ⟨[], [], []⟩).1 =
      .error (("Server returned invalid Content-Type: ".toList) ++ ("text/html".toList)) :=
  performFetch_contentTypeMismatch ("http://a".toList) ("text/csv".toList) ("lab".toList)
    respHtml 0 ⟨[], [], []⟩ ("text/html".toList) (by decide) (by decide) (by decide) (by decide)
